import Mathlib

/-!
Verification of the `multiplayer-demo` entity/component replication code:
a shallow embedding of the wire codec (`postcard`), the kind-id registry,
the host-side change-detection broadcaster and fan-out, and the client-side
replication resolver, together with proofs and refutations of the
specification's claims about them.
-/

namespace Demo

/-! ### Postcard varint codec

`postcard` encodes every multi-byte unsigned integer (`u16`, `u32`, `u64`,
`usize`, enum discriminants, sequence lengths) as a little-endian base-128
varint with a continuation bit.  Bytes are modelled as `Nat`s; real byte
streams have every element `< 256`.
-/

/-- The postcard unsigned varint encoder: emit the low seven bits of the
value with the continuation bit (`+ 128`) while more bits remain. -/
def encodeVarint (n : Nat) : List Nat :=
  if n < 128 then [n]
  else (n % 128 + 128) :: encodeVarint (n / 128)
termination_by n
decreasing_by exact Nat.div_lt_self (by omega) (by omega)

/-- Maximum number of bytes `postcard` reads for a `width`-bit varint
(`varint_max::<T>()` in the `postcard` sources). -/
def varintMax (width : Nat) : Nat := (width + 6) / 7

/-- Largest value `postcard` accepts in the final byte of a maximal-length
`width`-bit varint (`max_of_last_byte::<T>()`). -/
def maxOfLastByte (width : Nat) : Nat := 2 ^ (width % 7) - 1

/-- The postcard `try_take_varint_*` loop on a `width`-bit unsigned integer:
each byte contributes its low seven bits via a wrapping shift-or
(`out |= carry << (7 * i)` in `width`-bit arithmetic); a clear continuation
bit ends the loop, and the final permitted byte is bounds-checked. -/
def decodeVarintLoop (width : Nat) : Nat → Nat → Nat → List Nat → Option (Nat × List Nat)
  | _, _, _, [] => none
  | 0, _, _, _ :: _ => none
  | fuel + 1, i, acc, b :: rest =>
    let acc' := acc ||| (((b % 128) <<< (7 * i)) % 2 ^ width)
    if b < 128 then
      if fuel = 0 ∧ maxOfLastByte width < b then none
      else some (acc', rest)
    else decodeVarintLoop width fuel (i + 1) acc' rest

/-- Decode a `width`-bit varint from the front of a byte stream. -/
def decodeVarint (width : Nat) (bs : List Nat) : Option (Nat × List Nat) :=
  decodeVarintLoop width (varintMax width) 0 0 bs

theorem encodeVarint_ne_nil (n : Nat) : encodeVarint n ≠ [] := by
  rw [encodeVarint]
  split <;> simp

/-- Generalised varint round-trip: decoding from byte position `i` with the
bits below `7 * i` already accumulated in `acc` recovers the encoded value.
Holds for every width not divisible by 7 (all Rust widths used here:
16, 32, 64). -/
theorem decodeVarintLoop_encodeVarint (width : Nat) (hw : width % 7 ≠ 0) :
    ∀ n i acc : Nat, ∀ rest : List Nat,
      7 * i < width → n < 2 ^ (width - 7 * i) → acc < 2 ^ (7 * i) →
      decodeVarintLoop width (varintMax width - i) i acc (encodeVarint n ++ rest)
        = some (acc + n * 2 ^ (7 * i), rest) := by
  intro n
  induction n using Nat.strong_induction_on with
  | _ n IH =>
    intro i acc rest hi hn hacc
    have hvm : varintMax width = (width + 6) / 7 := rfl
    have hml : maxOfLastByte width = 2 ^ (width % 7) - 1 := rfl
    have hfuel : ∃ f, varintMax width - i = f + 1 := by
      refine ⟨varintMax width - i - 1, ?_⟩
      omega
    obtain ⟨f, hf⟩ := hfuel
    rw [encodeVarint]
    by_cases h128 : n < 128
    · -- single (final) byte: the value itself, continuation bit clear
      rw [if_pos h128]
      have hmod : n % 128 = n := Nat.mod_eq_of_lt h128
      have hlt : n * 2 ^ (7 * i) < 2 ^ width := by
        have h1 : n * 2 ^ (7 * i) < 2 ^ (width - 7 * i) * 2 ^ (7 * i) :=
          (Nat.mul_lt_mul_right (Nat.two_pow_pos _)).mpr hn
        have h2 : 2 ^ (width - 7 * i) * 2 ^ (7 * i) = 2 ^ width := by
          rw [← pow_add]
          congr 1
          omega
        omega
      have hacc' : acc ||| ((n % 128) <<< (7 * i) % 2 ^ width)
          = acc + n * 2 ^ (7 * i) := by
        rw [hmod, Nat.shiftLeft_eq, Nat.mod_eq_of_lt hlt, Nat.lor_comm,
          mul_comm n (2 ^ (7 * i)), ← Nat.mul_add_lt_is_or hacc]
        ring
      have hcheck : ¬ (f = 0 ∧ maxOfLastByte width < n) := by
        rintro ⟨hf0, hlast⟩
        subst hf0
        have hwi : width - 7 * i = width % 7 := by omega
        rw [hwi] at hn
        have : 0 < 2 ^ (width % 7) := Nat.two_pow_pos _
        omega
      rw [hf]
      simp only [decodeVarintLoop, List.cons_append, List.nil_append]
      rw [if_pos h128, if_neg hcheck, hacc']
      rfl
    · -- continuation byte: low seven bits now, the rest recursively
      rw [if_neg h128]
      have hgap : 7 * i + 7 < width := by
        have h2 : (128 : Nat) ≤ 2 ^ (width - 7 * i) := by omega
        by_contra hcon
        have hle : width - 7 * i ≤ 7 := by omega
        have h3 : (2 : Nat) ^ (width - 7 * i) ≤ 2 ^ 7 :=
          Nat.pow_le_pow_right (by omega) hle
        have h4 : (2 : Nat) ^ 7 = 128 := by norm_num
        omega
      have hcarry : (n % 128 + 128) % 128 = n % 128 := by omega
      have hshift : (n % 128) * 2 ^ (7 * i) < 2 ^ width := by
        have h1 : (n % 128) * 2 ^ (7 * i) < 128 * 2 ^ (7 * i) :=
          (Nat.mul_lt_mul_right (Nat.two_pow_pos _)).mpr (Nat.mod_lt _ (by omega))
        have h2 : (128 : Nat) * 2 ^ (7 * i) = 2 ^ (7 * i + 7) := by
          rw [pow_add]
          ring
        have h3 : (2 : Nat) ^ (7 * i + 7) ≤ 2 ^ width :=
          Nat.pow_le_pow_right (by omega) (by omega)
        omega
      have hacc' : acc ||| (((n % 128 + 128) % 128) <<< (7 * i) % 2 ^ width)
          = acc + (n % 128) * 2 ^ (7 * i) := by
        rw [hcarry, Nat.shiftLeft_eq, Nat.mod_eq_of_lt hshift, Nat.lor_comm,
          mul_comm (n % 128) (2 ^ (7 * i)), ← Nat.mul_add_lt_is_or hacc]
        ring
      have hbig : ¬ (n % 128 + 128 < 128) := by omega
      rw [hf]
      simp only [decodeVarintLoop, List.cons_append]
      rw [if_neg hbig, hacc']
      have hfeq : f = varintMax width - (i + 1) := by omega
      have hIH := IH (n / 128) (Nat.div_lt_self (by omega) (by omega))
        (i + 1) (acc + (n % 128) * 2 ^ (7 * i)) rest
        (by omega)
        (by
          rw [Nat.div_lt_iff_lt_mul (by omega : (0:Nat) < 128)]
          calc n < 2 ^ (width - 7 * i) := hn
            _ = 2 ^ (width - 7 * (i + 1)) * 128 := by
                rw [show (128 : Nat) = 2 ^ 7 by rfl, ← pow_add]
                congr 1
                omega)
        (by
          have h1 : acc + (n % 128) * 2 ^ (7 * i)
              < 2 ^ (7 * i) + 127 * 2 ^ (7 * i) := by
            have : (n % 128) * 2 ^ (7 * i) ≤ 127 * 2 ^ (7 * i) :=
              Nat.mul_le_mul_right _ (by omega)
            omega
          calc acc + (n % 128) * 2 ^ (7 * i)
              < 2 ^ (7 * i) + 127 * 2 ^ (7 * i) := h1
            _ = 2 ^ (7 * (i + 1)) := by
                rw [show 7 * (i + 1) = 7 * i + 7 by ring, pow_add]
                ring)
      rw [hfeq]
      simp only [List.append_eq]
      rw [hIH]
      congr 2
      have : n % 128 + 128 * (n / 128) = n := Nat.mod_add_div n 128
      calc acc + (n % 128) * 2 ^ (7 * i) + n / 128 * 2 ^ (7 * (i + 1))
          = acc + ((n % 128) + 128 * (n / 128)) * 2 ^ (7 * i) := by
            rw [show 7 * (i + 1) = 7 * i + 7 by ring, pow_add]
            ring
        _ = acc + n * 2 ^ (7 * i) := by rw [this]

/-- Varint round-trip at the front of a stream: the form used by the
message-level codec proofs. -/
theorem decodeVarint_encodeVarint (width n : Nat) (rest : List Nat)
    (hw : width % 7 ≠ 0) (hn : n < 2 ^ width) :
    decodeVarint width (encodeVarint n ++ rest) = some (n, rest) := by
  unfold decodeVarint
  have h := decodeVarintLoop_encodeVarint width hw n 0 0 rest
    (by omega) (by simpa using hn) (by simp)
  simpa using h

/-! ### Byte-stream helpers -/

/-- Take exactly `n` bytes off the front of the stream (`postcard`'s
`try_take_n`; fails when fewer than `n` bytes remain). -/
def takeExact (n : Nat) (bs : List Nat) : Option (List Nat × List Nat) :=
  if bs.length < n then none else some (bs.take n, bs.drop n)

theorem takeExact_append (l rest : List Nat) :
    takeExact l.length (l ++ rest) = some (l, rest) := by
  unfold takeExact
  rw [if_neg (by simp), List.take_left, List.drop_left]

/-! ### Wire data model (crate `messages`) -/

/-- Rust `PlayerId(Uuid)`: modelled as the 16 raw bytes of the UUID, which is
exactly what serde writes for a `Uuid` on a non-human-readable format
(`serialize_bytes(self.as_bytes())`). -/
abbrev PlayerId := List Nat

/-- Rust `NetworkEntity(u64)`: the wire-stable 64-bit entity identifier. -/
structure NetworkEntity where
  val : Nat
deriving DecidableEq

/-- Rust `PlayerMessage` (client → host). -/
inductive PlayerMessage where
  | Hello (my_id : PlayerId)
deriving DecidableEq

/-- Rust `ServerMessage` (host → client), the four-variant tagged union. -/
inductive ServerMessage where
  | Welcome (players : List PlayerId)
  | Refresh (world : List Nat) (players : List PlayerId)
  | ComponentAdded (entity : NetworkEntity) (component : Nat) (data : List Nat)
  | ComponentChanged (entity : NetworkEntity) (component : Nat) (data : List Nat)
deriving DecidableEq

/-! ### Postcard codec for `ServerMessage`

The server writes `postcard::to_allocvec(&send)` where `send` is the
`Option<ServerMessage>` popped from the queue, then strips the first byte;
the client parses the frame with `postcard::from_bytes::<ServerMessage>`.
-/

/-- postcard `Vec<u8>` / `serialize_bytes`: varint length, then raw bytes. -/
def encodeBytes (l : List Nat) : List Nat := encodeVarint l.length ++ l

/-- postcard encoding of the elements of a `Vec<PlayerId>` (each UUID is
`serialize_bytes` of its 16 bytes). -/
def encodePlayerIdList : List PlayerId → List Nat
  | [] => []
  | p :: ps => encodeBytes p ++ encodePlayerIdList ps

/-- postcard encoding of `ServerMessage`: the variant index as a `u32`
varint, then the fields in declaration order. -/
def encodeServerMessage : ServerMessage → List Nat
  | .Welcome players =>
      encodeVarint 0 ++ encodeVarint players.length ++ encodePlayerIdList players
  | .Refresh world players =>
      encodeVarint 1 ++ encodeBytes world
        ++ encodeVarint players.length ++ encodePlayerIdList players
  | .ComponentAdded e c d =>
      encodeVarint 2 ++ encodeVarint e.val ++ encodeVarint c ++ encodeBytes d
  | .ComponentChanged e c d =>
      encodeVarint 3 ++ encodeVarint e.val ++ encodeVarint c ++ encodeBytes d

/-- postcard encoding of `Option<ServerMessage>`: a single discriminant byte,
then the payload if `Some`. -/
def encodeOptionServerMessage : Option ServerMessage → List Nat
  | none => [0]
  | some m => 1 :: encodeServerMessage m

/-- The binary frame the host's bridging task writes for queue item `send`:
`postcard::to_allocvec(&send)` with the first byte stripped
(`Message::Binary(data[1..].to_vec())`). -/
def serverFrame (send : Option ServerMessage) : List Nat :=
  (encodeOptionServerMessage send).drop 1

/-- Decode a postcard `Vec<u8>` (length varint read with the wasm client's
`usize = u32` bounds). -/
def decodeBytes (bs : List Nat) : Option (List Nat × List Nat) :=
  match decodeVarint 32 bs with
  | some (len, rest) => takeExact len rest
  | none => none

/-- Decode one `PlayerId`: `deserialize_bytes` plus the UUID visitor's
16-byte length check. -/
def decodePlayerId (bs : List Nat) : Option (PlayerId × List Nat) :=
  match decodeBytes bs with
  | some (uuid, rest) => if uuid.length = 16 then some (uuid, rest) else none
  | none => none

/-- Decode `n` consecutive `PlayerId`s. -/
def decodePlayerIdList : Nat → List Nat → Option (List PlayerId × List Nat)
  | 0, bs => some ([], bs)
  | n + 1, bs =>
    match decodePlayerId bs with
    | some (p, rest) =>
      match decodePlayerIdList n rest with
      | some (ps, rest2) => some (p :: ps, rest2)
      | none => none
    | none => none

/-- Decode a `Vec<PlayerId>`: varint count, then that many UUIDs. -/
def decodePlayerIds (bs : List Nat) : Option (List PlayerId × List Nat) :=
  match decodeVarint 32 bs with
  | some (n, rest) => decodePlayerIdList n rest
  | none => none

/-- Decode the body of `ComponentAdded`/`ComponentChanged`: a `u64` varint
entity, a `u16` varint kind id, then the payload bytes. -/
def decodeComponentBody (bs : List Nat) : Option ((NetworkEntity × Nat × List Nat) × List Nat) :=
  match decodeVarint 64 bs with
  | some (e, rest2) =>
    match decodeVarint 16 rest2 with
    | some (c, rest3) =>
      match decodeBytes rest3 with
      | some (d, rest4) => some ((⟨e⟩, c, d), rest4)
      | none => none
    | none => none
  | none => none

/-- postcard decoding of `ServerMessage`: `u32` varint discriminant selects
the variant, then its fields are read in declaration order; an out-of-range
discriminant is an error. -/
def decodeServerMessage (bs : List Nat) : Option (ServerMessage × List Nat) :=
  match decodeVarint 32 bs with
  | none => none
  | some (tag, rest) =>
    if tag = 0 then
      match decodePlayerIds rest with
      | some (players, rest2) => some (.Welcome players, rest2)
      | none => none
    else if tag = 1 then
      match decodeBytes rest with
      | some (world, rest2) =>
        match decodePlayerIds rest2 with
        | some (players, rest3) => some (.Refresh world players, rest3)
        | none => none
      | none => none
    else if tag = 2 then
      match decodeComponentBody rest with
      | some ((e, c, d), rest2) => some (.ComponentAdded e c d, rest2)
      | none => none
    else if tag = 3 then
      match decodeComponentBody rest with
      | some ((e, c, d), rest2) => some (.ComponentChanged e c d, rest2)
      | none => none
    else none

/-- The client parser `postcard::from_bytes::<ServerMessage>`: trailing
bytes after a successful parse are discarded, not an error. -/
def fromBytesServerMessage (bs : List Nat) : Option ServerMessage :=
  match decodeServerMessage bs with
  | some (m, _) => some m
  | none => none

/-- Value ranges guaranteed by the Rust types of the fields: `component` is a
`u16`, the `NetworkEntity` payload a `u64`, `Vec` lengths fit the wasm
client's `usize = u32`, and every `PlayerId` carries exactly 16 UUID bytes. -/
def ServerMessage.WF : ServerMessage → Prop
  | .Welcome players =>
      players.length < 2 ^ 32 ∧ ∀ p ∈ players, List.length p = 16
  | .Refresh world players =>
      world.length < 2 ^ 32 ∧ players.length < 2 ^ 32
        ∧ ∀ p ∈ players, List.length p = 16
  | .ComponentAdded e c d => e.val < 2 ^ 64 ∧ c < 2 ^ 16 ∧ d.length < 2 ^ 32
  | .ComponentChanged e c d => e.val < 2 ^ 64 ∧ c < 2 ^ 16 ∧ d.length < 2 ^ 32

theorem decodeBytes_encodeBytes (l rest : List Nat) (h : l.length < 2 ^ 32) :
    decodeBytes (encodeBytes l ++ rest) = some (l, rest) := by
  unfold decodeBytes encodeBytes
  rw [List.append_assoc, decodeVarint_encodeVarint 32 _ _ (by norm_num) h]
  exact takeExact_append l rest

theorem decodePlayerId_encodeBytes (p : PlayerId) (rest : List Nat)
    (h : List.length p = 16) :
    decodePlayerId (encodeBytes p ++ rest) = some (p, rest) := by
  unfold decodePlayerId
  rw [decodeBytes_encodeBytes p rest (by omega)]
  simp [h]

theorem decodePlayerIdList_encodePlayerIdList (ps : List PlayerId)
    (rest : List Nat) (h : ∀ p ∈ ps, List.length p = 16) :
    decodePlayerIdList ps.length (encodePlayerIdList ps ++ rest)
      = some (ps, rest) := by
  induction ps with
  | nil => simp [decodePlayerIdList, encodePlayerIdList]
  | cons p ps ih =>
    have hp : List.length p = 16 := h p (by simp)
    have hps : ∀ q ∈ ps, List.length q = 16 := fun q hq => h q (by simp [hq])
    simp only [encodePlayerIdList, List.length_cons, List.append_assoc,
      decodePlayerIdList, decodePlayerId_encodeBytes p _ hp, ih hps]

theorem decodePlayerIds_encode (ps : List PlayerId) (rest : List Nat)
    (hlen : ps.length < 2 ^ 32) (h : ∀ p ∈ ps, List.length p = 16) :
    decodePlayerIds (encodeVarint ps.length ++ (encodePlayerIdList ps ++ rest))
      = some (ps, rest) := by
  unfold decodePlayerIds
  rw [decodeVarint_encodeVarint 32 _ _ (by norm_num) hlen]
  exact decodePlayerIdList_encodePlayerIdList ps rest h

theorem decodeComponentBody_encode (e : NetworkEntity) (c : Nat)
    (d rest : List Nat) (h1 : e.val < 2 ^ 64) (h2 : c < 2 ^ 16)
    (h3 : d.length < 2 ^ 32) :
    decodeComponentBody
        (encodeVarint e.val ++ (encodeVarint c ++ (encodeBytes d ++ rest)))
      = some ((e, c, d), rest) := by
  unfold decodeComponentBody
  rw [decodeVarint_encodeVarint 64 _ _ (by norm_num) h1]
  simp only [decodeVarint_encodeVarint 16 c (encodeBytes d ++ rest) (by norm_num) h2,
    decodeBytes_encodeBytes d rest h3]

/-- Message-level round trip: a well-formed `ServerMessage` survives
postcard encoding followed by decoding, with the remaining stream intact. -/
theorem decodeServerMessage_encodeServerMessage (m : ServerMessage)
    (rest : List Nat) (h : m.WF) :
    decodeServerMessage (encodeServerMessage m ++ rest) = some (m, rest) := by
  cases m with
  | Welcome players =>
    obtain ⟨h1, h2⟩ := h
    simp only [encodeServerMessage, List.append_assoc, decodeServerMessage]
    rw [decodeVarint_encodeVarint 32 0 _ (by norm_num) (by norm_num)]
    simp only [decodePlayerIds_encode players rest h1 h2]
    norm_num
  | Refresh world players =>
    obtain ⟨h1, h2, h3⟩ := h
    simp only [encodeServerMessage, List.append_assoc, decodeServerMessage]
    rw [decodeVarint_encodeVarint 32 1 _ (by norm_num) (by norm_num)]
    simp only [decodeBytes_encodeBytes world
        (encodeVarint players.length ++ (encodePlayerIdList players ++ rest)) h1,
      decodePlayerIds_encode players rest h2 h3]
    norm_num
  | ComponentAdded e c d =>
    obtain ⟨h1, h2, h3⟩ := h
    simp only [encodeServerMessage, List.append_assoc, decodeServerMessage]
    rw [decodeVarint_encodeVarint 32 2 _ (by norm_num) (by norm_num)]
    simp only [decodeComponentBody_encode e c d rest h1 h2 h3]
    norm_num
  | ComponentChanged e c d =>
    obtain ⟨h1, h2, h3⟩ := h
    simp only [encodeServerMessage, List.append_assoc, decodeServerMessage]
    rw [decodeVarint_encodeVarint 32 3 _ (by norm_num) (by norm_num)]
    simp only [decodeComponentBody_encode e c d rest h1 h2 h3]
    norm_num

/-! ### Kind-id registry (crate `shared_components`) -/

/-- Rust `std::any::TypeId` restricted to the replicable component types the
`networked!` macro invocation registers (`100 => NSprite`,
`200 => NTransform`). -/
inductive TypeId where
  | NSpriteT
  | NTransformT
deriving DecidableEq

/-- Association-list map standing in for `bevy::utils::HashMap` (keys are
never duplicated by the code modelled here). -/
def lookupA {α β : Type} [DecidableEq α] : List (α × β) → α → Option β
  | [], _ => none
  | (k, v) :: rest, key => if key = k then some v else lookupA rest key

/-- Model of `HashMap::insert`: overwrite the binding if the key is present,
otherwise add it. -/
def insertA {α β : Type} [DecidableEq α] (l : List (α × β)) (k : α) (v : β) :
    List (α × β) :=
  if (lookupA l k).isSome then
    l.map (fun p => if p.1 = k then (k, v) else p)
  else (k, v) :: l

/-- Rust `kind_to_type_id_mappings()`: the two registry maps built once at
startup, inserting `NSprite` (kind 100) then `NTransform` (kind 200) into
each. -/
def kind_to_type_id_mappings :
    List (Nat × TypeId) × List (TypeId × Nat) :=
  ([(100, TypeId.NSpriteT), (200, TypeId.NTransformT)],
   [(TypeId.NSpriteT, 100), (TypeId.NTransformT, 200)])

/-- Lookup `type_mappings.0.get(&kind)`: kind id to type. -/
def resolveType (kind : Nat) : Option TypeId :=
  lookupA kind_to_type_id_mappings.1 kind

/-- Lookup `type_mappings.1.get(&type_id)`: type to kind id. -/
def resolveKind (t : TypeId) : Option Nat :=
  lookupA kind_to_type_id_mappings.2 t

/-! ### Server-side entity handles (`messages` crate) -/

/-- A Bevy `Entity` on the host: 32-bit index (`id()`) and 32-bit
generation (reuse counter). -/
structure SEntity where
  id : Nat
  generation : Nat
deriving DecidableEq

/-- Rust `impl From<&Entity> for NetworkEntity`:
`(e.generation() as u64) << 32 | (e.id() as u64)`. -/
def NetworkEntity.fromEntity (e : SEntity) : NetworkEntity :=
  ⟨(e.generation <<< 32) ||| e.id⟩

/-! ### Replicable components (`shared_components` crate) -/

/-- Component `NSprite { sprite_index: u32 }`. -/
structure NSprite where
  sprite_index : Nat
deriving DecidableEq

/-- The two `f32` bit patterns of a `Vec2`.  Floats are carried opaquely as
their 32-bit patterns: the replication core moves them byte-for-byte and
never does float arithmetic. -/
structure Vec2Bits where
  x : Nat
  y : Nat
deriving DecidableEq

/-- Component `NTransform { translation: Vec2, scale: Vec2 }`. -/
structure NTransform where
  translation : Vec2Bits
  scale : Vec2Bits
deriving DecidableEq

/-- Little-endian fixed-width byte encoding (`postcard` writes an `f32` as
its 4 `to_le_bytes`). -/
def bytesLE : Nat → Nat → List Nat
  | 0, _ => []
  | k + 1, v => v % 256 :: bytesLE k (v / 256)

/-- postcard encoding of `NSprite`: a `u32` varint. -/
def encodeNSprite (s : NSprite) : List Nat := encodeVarint s.sprite_index

/-- postcard encoding of `NTransform`: four `f32`s of 4 bytes each. -/
def encodeNTransform (t : NTransform) : List Nat :=
  bytesLE 4 t.translation.x ++ bytesLE 4 t.translation.y
    ++ bytesLE 4 t.scale.x ++ bytesLE 4 t.scale.y

/-- postcard decoding of a `u32` field (used for `NSprite.sprite_index`). -/
def decodeNSprite (bs : List Nat) : Option NSprite :=
  match decodeVarint 32 bs with
  | some (v, _) => some ⟨v⟩
  | none => none

/-- postcard decoding of one `f32`: 4 little-endian bytes. -/
def decodeF32 (bs : List Nat) : Option (Nat × List Nat) :=
  match takeExact 4 bs with
  | some (b, rest) => some (b.foldr (fun byte acc => byte + 256 * acc) 0, rest)
  | none => none

/-- postcard decoding of `NTransform`: four consecutive `f32`s. -/
def decodeNTransform (bs : List Nat) : Option NTransform :=
  match decodeF32 bs with
  | some (tx, r1) =>
    match decodeF32 r1 with
    | some (ty, r2) =>
      match decodeF32 r2 with
      | some (sx, r3) =>
        match decodeF32 r3 with
        | some (sy, _) => some ⟨⟨tx, ty⟩, ⟨sx, sy⟩⟩
        | none => none
      | none => none
    | none => none
  | none => none

/-- A deserialized component value of one of the registered types. -/
inductive CValue where
  | sprite (s : NSprite)
  | transform (t : NTransform)
deriving DecidableEq

/-- Generic deserialization dispatched on the resolved type
(`registration.data::<ReflectDeserialize>()` driving the postcard
deserializer). -/
def deserializeComponent : TypeId → List Nat → Option CValue
  | TypeId.NSpriteT, bs => (decodeNSprite bs).map CValue.sprite
  | TypeId.NTransformT, bs => (decodeNTransform bs).map CValue.transform

/-! ### Host-side change detection (`server/src/main.rs::networked`) -/

/-- One row of `Query<(Entity, &T, ChangeTrackers<T>)>` in one tick:
the value plus Bevy's add/change flags. -/
structure Tracked (α : Type) where
  entity : SEntity
  value : α
  was_added : Bool
  was_changed : Bool

/-- The host-side `Broadcast` event (carries the raw host `Entity`). -/
inductive Broadcast where
  | ComponentChanged (entity : SEntity) (component : Nat) (data : List Nat)
  | ComponentAdded (entity : SEntity) (component : Nat) (data : List Nat)
deriving DecidableEq

/-- The loop of the generic `networked::<T>` system: for every entity whose
`T` was added or changed this tick, serialize the value with postcard and
send a `Broadcast::ComponentChanged` event — the only variant this system
ever sends.  The kind id comes from the type-to-kind map, unwrapped per
iteration (`none` models that panic; both registered types resolve). -/
def networked {α : Type} (encode : α → List Nat) (ty : TypeId) :
    List (Tracked α) → Option (List Broadcast)
  | [] => some []
  | t :: rest =>
    if t.was_added || t.was_changed then
      match resolveKind ty with
      | none => none
      | some kind =>
        match networked encode ty rest with
        | some bs =>
          some (Broadcast.ComponentChanged t.entity kind (encode t.value) :: bs)
        | none => none
    else networked encode ty rest

/-- System `networked::<NSprite>` as registered in `main`. -/
def networkedNSprite : List (Tracked NSprite) → Option (List Broadcast) :=
  networked encodeNSprite TypeId.NSpriteT

/-- System `networked::<NTransform>` as registered in `main`. -/
def networkedNTransform : List (Tracked NTransform) → Option (List Broadcast) :=
  networked encodeNTransform TypeId.NTransformT

/-! ### Host-side fan-out (`server/src/main.rs::broadcast_messages`) -/

/-- A connection's bounded outbound queue (the
`futures::channel::mpsc::Sender<ServerMessage>` side): buffered messages
plus the capacity at which `try_send` reports the queue full. -/
structure OutQueue where
  msgs : List ServerMessage
  capacity : Nat
deriving DecidableEq

/-- Model of `Sender::try_send`: enqueue if below capacity, error when full. -/
def try_send (q : OutQueue) (m : ServerMessage) : Option OutQueue :=
  if q.msgs.length < q.capacity then some { q with msgs := q.msgs ++ [m] }
  else none

/-- The `Broadcast` → `ServerMessage` conversion inside
`broadcast_messages` (`entity.into()` packs the `NetworkEntity`). -/
def broadcastToMessage : Broadcast → ServerMessage
  | Broadcast.ComponentChanged e c d =>
      ServerMessage.ComponentChanged (NetworkEntity.fromEntity e) c d
  | Broadcast.ComponentAdded e c d =>
      ServerMessage.ComponentAdded (NetworkEntity.fromEntity e) c d

/-- Inner loop of `broadcast_messages`: push one event's message onto every
connection's queue in map-iteration order;
`try_send(msg).expect("failed to send broadcast message")` panics the whole
system on a full queue, modelled as `none`. -/
def deliverToAll (b : Broadcast) :
    List (Nat × OutQueue) → Option (List (Nat × OutQueue))
  | [] => some []
  | (cid, q) :: rest =>
    match try_send q (broadcastToMessage b) with
    | some q' =>
      match deliverToAll b rest with
      | some rest' => some ((cid, q') :: rest')
      | none => none
    | none => none

/-- The `broadcast_messages` system: fan every queued `Broadcast` event out
to every sender. -/
def broadcast_messages (senders : List (Nat × OutQueue)) :
    List Broadcast → Option (List (Nat × OutQueue))
  | [] => some senders
  | b :: rest =>
    match deliverToAll b senders with
    | some senders' => broadcast_messages senders' rest
    | none => none

/-! ### Host-side inbound pump (`server/src/main.rs::pump_messages`) -/

/-- The host networking state `pump_messages` can reach: the shared inbound
queue it drains, the outbound senders, and a connection-to-player map of the
(otherwise unused) `ConnectionMappings` shape. -/
structure HostState where
  playerQueue : List (Nat × PlayerMessage)
  senders : List (Nat × OutQueue)
  connectionMappings : List (Nat × PlayerId)
  nextConnectionId : Nat
deriving DecidableEq

/-- Body of the `while let` in `pump_messages`: the `(connection_id,
message)` pair is printed and dropped; nothing is recorded. -/
def processPlayerMessage (st : HostState) (_item : Nat × PlayerMessage) :
    HostState :=
  st

/-- The `while let Ok(Some(..)) = receive.try_next()` loop of
`pump_messages`: pop each queued pair and run the body on it. -/
def pumpLoop (st : HostState) : List (Nat × PlayerMessage) → HostState
  | [] => st
  | item :: rest => pumpLoop (processPlayerMessage st item) rest

/-- System `pump_messages`: drain the shared inbound queue until `try_next` reports
it empty, feeding each popped pair to the loop body. -/
def pump_messages (st : HostState) : HostState :=
  pumpLoop { st with playerQueue := [] } st.playerQueue

/-! ### Client replication resolver (`client/src/main.rs::handle_server_message`) -/

/-- A client-local Bevy `Entity`, numbered in spawn order. -/
abbrev CEntity := Nat

/-- The client-side state the resolver touches: the `Local` entity-lookup
map, the spawned entities carrying a `NetworkEntity` component (what the
`entity_finder` query sees), the fresh-entity counter, and the typed
component stores. -/
structure ClientState where
  entityLookup : List (NetworkEntity × CEntity)
  worldNE : List (CEntity × NetworkEntity)
  nextEntity : Nat
  sprites : List (CEntity × NSprite)
  transforms : List (CEntity × NTransform)
deriving DecidableEq

/-- A freshly started client: no mappings, no entities, no components. -/
def freshClient : ClientState := ⟨[], [], 0, [], []⟩

/-- The `find_entity` closure: consult the `Local` lookup map first; fall
back to the `entity_finder` query snapshot; otherwise spawn a fresh local
entity carrying the `NetworkEntity`.  Both fallback paths cache the mapping. -/
def find_entity (snapshot : List (CEntity × NetworkEntity))
    (ne : NetworkEntity) (st : ClientState) : CEntity × ClientState :=
  match lookupA st.entityLookup ne with
  | some e => (e, st)
  | none =>
    match snapshot.find? (fun p => decide (p.2 = ne)) with
    | some (e, _) =>
      (e, { st with entityLookup := insertA st.entityLookup ne e })
    | none =>
      let e := st.nextEntity
      (e, { st with
        nextEntity := e + 1,
        entityLookup := insertA st.entityLookup ne e,
        worldNE := st.worldNE ++ [(e, ne)] })

/-- Model of `ReflectComponent::insert`: overwrite the value of that component type
on the entity. -/
def insertComponent (st : ClientState) (e : CEntity) : CValue → ClientState
  | CValue.sprite s => { st with sprites := insertA st.sprites e s }
  | CValue.transform t => { st with transforms := insertA st.transforms e t }

/-- Processing of one drained message in `handle_server_message`:
`Welcome`, `Refresh` and `ComponentAdded` have empty match arms;
`ComponentChanged` resolves the entity, unwraps the kind id
(`.unwrap()` — `none` models the panic), deserializes the payload
(`.expect(...)` likewise) and overwrites the component on the resolved
entity. -/
def applyMessage (snapshot : List (CEntity × NetworkEntity))
    (st : ClientState) : ServerMessage → Option ClientState
  | ServerMessage.Welcome _ => some st
  | ServerMessage.Refresh _ _ => some st
  | ServerMessage.ComponentAdded _ _ _ => some st
  | ServerMessage.ComponentChanged ne kind data =>
    let r := find_entity snapshot ne st
    match resolveType kind with
    | none => none
    | some ty =>
      match deserializeComponent ty data with
      | none => none
      | some v => some (insertComponent r.2 r.1 v)

/-- Drain loop of `handle_server_message` with the query snapshot fixed. -/
def handleLoop (snapshot : List (CEntity × NetworkEntity))
    (st : ClientState) : List ServerMessage → Option ClientState
  | [] => some st
  | m :: rest =>
    match applyMessage snapshot st m with
    | some st' => handleLoop snapshot st' rest
    | none => none

/-- One run of the `handle_server_message` system: the `entity_finder`
query snapshot is taken at system start, then the inbound queue is drained
until `try_next` reports it empty. -/
def handleRun (st : ClientState) (msgs : List ServerMessage) :
    Option ClientState :=
  handleLoop st.worldNE st msgs

/-! ### Association-list facts shared by the claim proofs -/

theorem lookupA_nil {α β : Type} [DecidableEq α] (k : α) :
    lookupA ([] : List (α × β)) k = none := rfl

theorem lookupA_cons {α β : Type} [DecidableEq α] (ka : α) (va : β)
    (tl : List (α × β)) (k : α) :
    lookupA ((ka, va) :: tl) k = if k = ka then some va else lookupA tl k := rfl

theorem lookupA_none_key {α β : Type} [DecidableEq α] (l : List (α × β))
    (k : α) (h : lookupA l k = none) : ∀ p ∈ l, p.1 ≠ k := by
  induction l with
  | nil => intro p hp; cases hp
  | cons a tl ih =>
    intro p hp
    obtain ⟨ka, va⟩ := a
    rw [List.mem_cons] at hp
    by_cases hk : k = ka
    · rw [lookupA_cons, if_pos hk] at h
      cases h
    · rw [lookupA_cons, if_neg hk] at h
      rcases hp with rfl | hp
      · exact fun hcon => hk hcon.symm
      · exact ih h p hp

theorem lookupA_mapReplace_ne {α β : Type} [DecidableEq α]
    (l : List (α × β)) (k k' : α) (v : β) (h : k ≠ k') :
    lookupA (l.map (fun p => if p.1 = k' then (k', v) else p)) k
      = lookupA l k := by
  induction l with
  | nil => rfl
  | cons a tl ih =>
    obtain ⟨ka, va⟩ := a
    rw [List.map_cons]
    by_cases hka : ka = k'
    · rw [show (if (ka, va).1 = k' then (k', v) else (ka, va)) = (k', v)
          from if_pos hka]
      rw [lookupA_cons, lookupA_cons, if_neg h,
        if_neg (fun hc => h (hc.trans hka)), ih]
    · rw [show (if (ka, va).1 = k' then (k', v) else (ka, va)) = (ka, va)
          from if_neg hka]
      rw [lookupA_cons, lookupA_cons]
      by_cases hk2 : k = ka
      · rw [if_pos hk2, if_pos hk2]
      · rw [if_neg hk2, if_neg hk2, ih]

theorem lookupA_insertA_ne {α β : Type} [DecidableEq α] (l : List (α × β))
    (k k' : α) (v : β) (h : k ≠ k') :
    lookupA (insertA l k' v) k = lookupA l k := by
  unfold insertA
  split
  · exact lookupA_mapReplace_ne l k k' v h
  · rw [lookupA, if_neg h]

/-! ## Claim C7 — registry bijection -/

/-- C7: the startup registry's kind-id→type and type→kind-id maps are exact
mutual inverses over the registered set (`100 ↦ NSprite`,
`200 ↦ NTransform`); being `Option`-valued functions that invert each other,
no registered type has two ids and no two types share an id. -/
theorem C7_registry_bijection :
    (∀ k t, resolveType k = some t → resolveKind t = some k)
    ∧ (∀ t k, resolveKind t = some k → resolveType k = some t)
    ∧ resolveType 100 = some TypeId.NSpriteT
    ∧ resolveType 200 = some TypeId.NTransformT := by
  refine ⟨?_, ?_, by decide, by decide⟩
  · intro k t h
    simp only [resolveType, kind_to_type_id_mappings, lookupA] at h
    split_ifs at h with h1 h2
    · injection h with h'
      subst h1; subst h'
      decide
    · injection h with h'
      subst h2; subst h'
      decide
  · intro t k h
    cases t with
    | NSpriteT =>
      rw [show resolveKind TypeId.NSpriteT = some 100 from by decide] at h
      injection h with h'
      subst h'
      decide
    | NTransformT =>
      rw [show resolveKind TypeId.NTransformT = some 200 from by decide] at h
      injection h with h'
      subst h'
      decide

/-- C7 witness: the bijection evaluated on the two registered pairs. -/
theorem C7_registry_bijection_witness :
    resolveKind TypeId.NSpriteT = some 100
    ∧ resolveType 200 = some TypeId.NTransformT :=
  ⟨C7_registry_bijection.1 100 TypeId.NSpriteT (by decide),
   C7_registry_bijection.2.2.2⟩

/-! ## Claim C9 — NetworkEntity bit packing -/

/-- C9: the `NetworkEntity` derived from a local entity handle equals
`generation * 2^32 + index` as a 64-bit value — generation in the high
32 bits, index in the low 32 bits. -/
theorem C9_networkEntity_packing (e : SEntity)
    (hid : e.id < 2 ^ 32) (hgen : e.generation < 2 ^ 32) :
    (NetworkEntity.fromEntity e).val = e.generation * 2 ^ 32 + e.id
    ∧ (NetworkEntity.fromEntity e).val < 2 ^ 64 := by
  have h1 : (NetworkEntity.fromEntity e).val
      = e.generation * 2 ^ 32 + e.id := by
    show (e.generation <<< 32) ||| e.id = _
    rw [Nat.shiftLeft_eq, mul_comm e.generation, ← Nat.mul_add_lt_is_or hid]
  refine ⟨h1, ?_⟩
  rw [h1]
  calc e.generation * 2 ^ 32 + e.id
      < e.generation * 2 ^ 32 + 2 ^ 32 := by omega
    _ = (e.generation + 1) * 2 ^ 32 := by ring
    _ ≤ 2 ^ 32 * 2 ^ 32 := Nat.mul_le_mul_right _ (by omega)
    _ = 2 ^ 64 := by norm_num

/-- C9 witness: index 7, generation 3. -/
theorem C9_networkEntity_packing_witness :
    (7 : Nat) < 2 ^ 32 ∧ (3 : Nat) < 2 ^ 32
    ∧ ((NetworkEntity.fromEntity ⟨7, 3⟩).val = 3 * 2 ^ 32 + 7
       ∧ (NetworkEntity.fromEntity ⟨7, 3⟩).val < 2 ^ 64) :=
  ⟨by norm_num, by norm_num,
   C9_networkEntity_packing ⟨7, 3⟩ (by norm_num) (by norm_num)⟩

/-! ## Claim C10 — pump_messages discards everything -/

theorem pumpLoop_id (q : List (Nat × PlayerMessage)) (st : HostState) :
    pumpLoop st q = st := by
  induction q generalizing st with
  | nil => rfl
  | cons item rest ih => rw [pumpLoop, processPlayerMessage, ih]

/-- C10: draining the shared inbound queue leaves every piece of host
state unchanged apart from the now-empty queue: each `(connection_id,
Hello)` pair is read and discarded, and in particular no
connection-id→PlayerId mapping is ever recorded. -/
theorem C10_pump_messages_discards (st : HostState) :
    pump_messages st = { st with playerQueue := [] }
    ∧ (pump_messages st).connectionMappings = st.connectionMappings
    ∧ (pump_messages st).senders = st.senders
    ∧ (pump_messages st).nextConnectionId = st.nextConnectionId := by
  have h : pump_messages st = { st with playerQueue := [] } := by
    unfold pump_messages
    exact pumpLoop_id st.playerQueue _
  exact ⟨h, by rw [h], by rw [h], by rw [h]⟩

/-! ## Claim C2 — behaviour of fan-out under a full queue -/

theorem deliverToAll_full_none (b : Broadcast)
    (senders : List (Nat × OutQueue))
    (hfull : ∃ p ∈ senders, ¬ p.2.msgs.length < p.2.capacity) :
    deliverToAll b senders = none := by
  induction senders with
  | nil => simp at hfull
  | cons s ss ih =>
    obtain ⟨cid, q⟩ := s
    obtain ⟨p, hp, hpfull⟩ := hfull
    rw [List.mem_cons] at hp
    rw [deliverToAll]
    rcases hp with rfl | hp
    · rw [try_send, if_neg hpfull]
    · cases hts : try_send q (broadcastToMessage b) with
      | none => rfl
      | some q' =>
        rw [ih ⟨p, hp, hpfull⟩]

/-- C2 counterexample: connection 0's queue is full while connection 1's is
empty with room; fanning out a single event panics the whole
`broadcast_messages` system (`none`): connection 1 receives nothing and the
tick aborts, instead of only connection 0 being torn down. -/
theorem C2_counterexample :
    ((⟨[], 8⟩ : OutQueue).msgs.length < (⟨[], 8⟩ : OutQueue).capacity)
    ∧ broadcast_messages [(0, ⟨[], 0⟩), (1, ⟨[], 8⟩)]
        [Broadcast.ComponentChanged ⟨0, 0⟩ 100 [0]] = none := by
  constructor
  · norm_num
  · decide

/-- C2 amended: the fan-out never blocks the tick (`try_send` is
non-blocking), but a full outbound queue on any one connection panics the
`broadcast_messages` system: the whole fan-out pass — and with it the
simulation tick — aborts, and no connection is guaranteed delivery. -/
theorem C2_full_queue_panics (senders : List (Nat × OutQueue))
    (bs : List Broadcast) (hbs : bs ≠ [])
    (hfull : ∃ p ∈ senders, ¬ p.2.msgs.length < p.2.capacity) :
    broadcast_messages senders bs = none := by
  cases bs with
  | nil => exact absurd rfl hbs
  | cons b rest =>
    rw [broadcast_messages, deliverToAll_full_none b senders hfull]

/-- C2 witness: two connections, one full queue, one event. -/
theorem C2_full_queue_panics_witness :
    ([Broadcast.ComponentChanged ⟨0, 0⟩ 100 [0]] ≠ ([] : List Broadcast))
    ∧ broadcast_messages [(0, ⟨[], 0⟩), (1, ⟨[], 8⟩)]
        [Broadcast.ComponentChanged ⟨0, 0⟩ 100 [0]] = none :=
  ⟨by simp,
   C2_full_queue_panics [(0, ⟨[], 0⟩), (1, ⟨[], 8⟩)]
     [Broadcast.ComponentChanged ⟨0, 0⟩ 100 [0]] (by simp)
     ⟨(0, ⟨[], 0⟩), by simp, by simp⟩⟩

/-! ## Claim C3 — unregistered kind id on the client -/

/-- C3 counterexample: kind id 999 is unregistered, and a
`ComponentChanged` carrying it makes `handle_server_message` panic
(`none`) — the message is not dropped with the resolver state left intact
and the connection kept open, as the claim requires. -/
theorem C3_counterexample :
    resolveType 999 = none
    ∧ handleRun freshClient
        [ServerMessage.ComponentChanged ⟨5⟩ 999 []] = none := by
  constructor
  · decide
  · decide

/-- C3 amended: an unregistered kind id inside a `ComponentChanged` panics
the client (`.unwrap()`), aborting the drain — later messages are never
processed; a `ComponentAdded`, whose arm is empty, is dropped with the
resolver state unchanged whatever its kind id. -/
theorem C3_unregistered_kind (st : ClientState) (ne : NetworkEntity)
    (kind : Nat) (data : List Nat) (rest : List ServerMessage)
    (hk : resolveType kind = none) :
    handleRun st (ServerMessage.ComponentChanged ne kind data :: rest) = none
    ∧ handleRun st (ServerMessage.ComponentAdded ne kind data :: rest)
        = handleRun st rest := by
  constructor
  · have ha : applyMessage st.worldNE st
        (ServerMessage.ComponentChanged ne kind data) = none := by
      show (let r := find_entity st.worldNE ne st
            match resolveType kind with
            | none => none
            | some ty =>
              match deserializeComponent ty data with
              | none => none
              | some v => some (insertComponent r.2 r.1 v)) = none
      simp only [hk]
    unfold handleRun handleLoop
    rw [ha]
  · rfl

/-- C3 witness: unregistered kind 999 on a fresh client. -/
theorem C3_unregistered_kind_witness :
    resolveType 999 = none
    ∧ (handleRun freshClient
          [ServerMessage.ComponentChanged ⟨5⟩ 999 [1]] = none
       ∧ handleRun freshClient
           [ServerMessage.ComponentAdded ⟨5⟩ 999 [1]]
         = handleRun freshClient []) :=
  ⟨by decide, C3_unregistered_kind freshClient ⟨5⟩ 999 [1] [] (by decide)⟩

/-! ## Claim C4 — ComponentAdded handling on the client -/

/-- C4 counterexample: a `ComponentAdded` on a fresh client changes
nothing — no entity is created, no mapping cached, no component applied —
and its result differs from the same payload delivered as
`ComponentChanged`, refuting "exactly as it does for ComponentChanged". -/
theorem C4_counterexample :
    handleRun freshClient [ServerMessage.ComponentAdded ⟨5⟩ 100 [7]]
        = some freshClient
    ∧ lookupA freshClient.entityLookup ⟨5⟩ = none
    ∧ handleRun freshClient [ServerMessage.ComponentAdded ⟨5⟩ 100 [7]]
        ≠ handleRun freshClient [ServerMessage.ComponentChanged ⟨5⟩ 100 [7]] := by
  refine ⟨by decide, by decide, by decide⟩

/-- C4 amended: the resolver ignores `ComponentAdded` entirely (the match
arm is empty): the state is returned unchanged and draining continues;
only `ComponentChanged` is resolved, deserialized and applied. -/
theorem C4_componentAdded_ignored (st : ClientState) (ne : NetworkEntity)
    (kind : Nat) (data : List Nat) (rest : List ServerMessage) :
    applyMessage st.worldNE st (ServerMessage.ComponentAdded ne kind data)
        = some st
    ∧ handleRun st (ServerMessage.ComponentAdded ne kind data :: rest)
        = handleRun st rest :=
  ⟨rfl, rfl⟩

/-! ## Claim C8 — wire round trip -/

/-- C8: every `ServerMessage` popped from a connection's outbound queue
survives the wire: the frame the host writes (the postcard encoding of the
`Option`-wrapped message with its first byte stripped) decodes through the
client's `ServerMessage` parser back to exactly the original message. -/
theorem C8_wire_roundtrip (m : ServerMessage) (h : m.WF) :
    fromBytesServerMessage (serverFrame (some m)) = some m := by
  have hdrop : serverFrame (some m) = encodeServerMessage m := rfl
  have hdec : decodeServerMessage (encodeServerMessage m) = some (m, []) := by
    have h2 := decodeServerMessage_encodeServerMessage m [] h
    rwa [List.append_nil] at h2
  unfold fromBytesServerMessage
  rw [hdrop, hdec]

/-- C8 witness: a concrete `ComponentChanged` survives the wire. -/
theorem C8_wire_roundtrip_witness :
    (ServerMessage.ComponentChanged ⟨5⟩ 200 [1, 2, 3]).WF
    ∧ fromBytesServerMessage
        (serverFrame (some (ServerMessage.ComponentChanged ⟨5⟩ 200 [1, 2, 3])))
      = some (ServerMessage.ComponentChanged ⟨5⟩ 200 [1, 2, 3]) :=
  ⟨⟨by norm_num, by norm_num, by norm_num⟩,
   C8_wire_roundtrip (ServerMessage.ComponentChanged ⟨5⟩ 200 [1, 2, 3])
     ⟨by norm_num, by norm_num, by norm_num⟩⟩

/-! ## Claim C5 — idempotent apply -/

/-- C5: applying the same `ComponentChanged{entity, kind, payload}` message
twice to a fresh client state — in two successive system runs, or twice
within one drain — yields exactly the state of applying it once: the second
application resolves the cached entity and overwrites the component with an
equal value, creating no additional state. -/
theorem C5_idempotent_apply (ne : NetworkEntity) (kind : Nat)
    (data : List Nat) :
    (handleRun freshClient [ServerMessage.ComponentChanged ne kind data]).bind
        (fun st => handleRun st [ServerMessage.ComponentChanged ne kind data])
      = handleRun freshClient [ServerMessage.ComponentChanged ne kind data]
    ∧ handleRun freshClient
        [ServerMessage.ComponentChanged ne kind data,
         ServerMessage.ComponentChanged ne kind data]
      = handleRun freshClient [ServerMessage.ComponentChanged ne kind data] := by
  cases hk : resolveType kind with
  | none =>
    constructor <;>
      simp [handleRun, handleLoop, applyMessage, find_entity, freshClient,
        lookupA, insertA, hk]
  | some ty =>
    cases hd : deserializeComponent ty data with
    | none =>
      constructor <;>
        simp [handleRun, handleLoop, applyMessage, find_entity, freshClient,
          lookupA, insertA, hk, hd]
    | some v =>
      cases v with
      | sprite s =>
        constructor <;>
          simp [handleRun, handleLoop, applyMessage, find_entity, freshClient,
            lookupA, insertA, insertComponent, hk, hd]
      | transform t =>
        constructor <;>
          simp [handleRun, handleLoop, applyMessage, find_entity, freshClient,
            lookupA, insertA, insertComponent, hk, hd]

/-! ## Claim C6 — entity-mapping stability -/

theorem find_entity_preserves_lookup
    (snapshot : List (CEntity × NetworkEntity)) (ne' ne : NetworkEntity)
    (e : CEntity) (st : ClientState)
    (hc : lookupA st.entityLookup ne = some e) :
    lookupA (find_entity snapshot ne' st).2.entityLookup ne = some e := by
  unfold find_entity
  cases hl : lookupA st.entityLookup ne' with
  | some e2 => simpa using hc
  | none =>
    have hne : ne ≠ ne' := by
      intro hcon
      subst hcon
      rw [hc] at hl
      cases hl
    cases hf : snapshot.find? (fun p => decide (p.2 = ne')) with
    | some p =>
      obtain ⟨e2, ne2⟩ := p
      show lookupA (insertA st.entityLookup ne' e2) ne = some e
      rw [lookupA_insertA_ne _ ne ne' _ hne]
      exact hc
    | none =>
      show lookupA (insertA st.entityLookup ne' st.nextEntity) ne = some e
      rw [lookupA_insertA_ne _ ne ne' _ hne]
      exact hc

theorem applyMessage_preserves_lookup
    (snapshot : List (CEntity × NetworkEntity)) (st st' : ClientState)
    (m : ServerMessage) (ne : NetworkEntity) (e : CEntity)
    (hc : lookupA st.entityLookup ne = some e)
    (h : applyMessage snapshot st m = some st') :
    lookupA st'.entityLookup ne = some e := by
  cases m with
  | Welcome players =>
    injection h with h2
    rw [← h2]
    exact hc
  | Refresh world players =>
    injection h with h2
    rw [← h2]
    exact hc
  | ComponentAdded a b c =>
    injection h with h2
    rw [← h2]
    exact hc
  | ComponentChanged ne' kind data =>
    have h' : (match resolveType kind with
        | none => none
        | some ty =>
          match deserializeComponent ty data with
          | none => none
          | some v =>
            some (insertComponent (find_entity snapshot ne' st).2
              (find_entity snapshot ne' st).1 v)) = some st' := h
    cases hk : resolveType kind with
    | none =>
      rw [hk] at h'
      cases h'
    | some ty =>
      rw [hk] at h'
      have h'' : (match deserializeComponent ty data with
          | none => none
          | some v =>
            some (insertComponent (find_entity snapshot ne' st).2
              (find_entity snapshot ne' st).1 v)) = some st' := h'
      cases hd : deserializeComponent ty data with
      | none =>
        rw [hd] at h''
        cases h''
      | some v =>
        rw [hd] at h''
        injection h'' with h2
        rw [← h2]
        have hpre := find_entity_preserves_lookup snapshot ne' ne e st hc
        cases v with
        | sprite s => simpa using hpre
        | transform t => simpa using hpre

theorem handleLoop_preserves_lookup
    (snapshot : List (CEntity × NetworkEntity)) (msgs : List ServerMessage)
    (st st' : ClientState) (ne : NetworkEntity) (e : CEntity)
    (hc : lookupA st.entityLookup ne = some e)
    (h : handleLoop snapshot st msgs = some st') :
    lookupA st'.entityLookup ne = some e := by
  induction msgs generalizing st with
  | nil =>
    injection h with h2
    rw [← h2]
    exact hc
  | cons m rest ih =>
    rw [handleLoop] at h
    cases ha : applyMessage snapshot st m with
    | none =>
      rw [ha] at h
      cases h
    | some st2 =>
      rw [ha] at h
      exact ih st2 (applyMessage_preserves_lookup snapshot st st2 m ne e hc ha) h

/-- C6: once the client has cached a mapping `E ↦ e`, processing any
sequence of further messages — in the same or later ticks — keeps the
mapping intact, and a later resolution of `E` returns the very same local
entity `e` with the state untouched: no second local entity is ever
created for `E`. -/
theorem C6_entity_mapping_stable (st : ClientState) (ne : NetworkEntity)
    (e : CEntity) (msgs : List ServerMessage) (st' : ClientState)
    (hcached : lookupA st.entityLookup ne = some e)
    (hrun : handleRun st msgs = some st') :
    lookupA st'.entityLookup ne = some e
    ∧ find_entity st'.worldNE ne st' = (e, st') := by
  have h1 := handleLoop_preserves_lookup st.worldNE msgs st st' ne e hcached hrun
  refine ⟨h1, ?_⟩
  unfold find_entity
  rw [h1]

/-- C6 witness: a cached mapping `⟨5⟩ ↦ 0` survives the processing of a
message referencing a different entity and still resolves to entity 0. -/
theorem C6_entity_mapping_stable_witness :
    lookupA (ClientState.mk [(⟨5⟩, 0)] [(0, ⟨5⟩)] 1 [] []).entityLookup ⟨5⟩
        = some 0
    ∧ handleRun (ClientState.mk [(⟨5⟩, 0)] [(0, ⟨5⟩)] 1 [] [])
        [ServerMessage.ComponentChanged ⟨9⟩ 100 [3]]
      = some (ClientState.mk [(⟨9⟩, 1), (⟨5⟩, 0)] [(0, ⟨5⟩), (1, ⟨9⟩)] 2
          [(1, ⟨3⟩)] [])
    ∧ (lookupA (ClientState.mk [(⟨9⟩, 1), (⟨5⟩, 0)] [(0, ⟨5⟩), (1, ⟨9⟩)] 2
          [(1, ⟨3⟩)] []).entityLookup ⟨5⟩ = some 0
       ∧ find_entity (ClientState.mk [(⟨9⟩, 1), (⟨5⟩, 0)]
            [(0, ⟨5⟩), (1, ⟨9⟩)] 2 [(1, ⟨3⟩)] []).worldNE ⟨5⟩
            (ClientState.mk [(⟨9⟩, 1), (⟨5⟩, 0)] [(0, ⟨5⟩), (1, ⟨9⟩)] 2
              [(1, ⟨3⟩)] [])
          = (0, ClientState.mk [(⟨9⟩, 1), (⟨5⟩, 0)] [(0, ⟨5⟩), (1, ⟨9⟩)] 2
              [(1, ⟨3⟩)] [])) :=
  ⟨by decide, by decide,
   C6_entity_mapping_stable (ClientState.mk [(⟨5⟩, 0)] [(0, ⟨5⟩)] 1 [] [])
     ⟨5⟩ 0 [ServerMessage.ComponentChanged ⟨9⟩ 100 [3]]
     (ClientState.mk [(⟨9⟩, 1), (⟨5⟩, 0)] [(0, ⟨5⟩), (1, ⟨9⟩)] 2
       [(1, ⟨3⟩)] [])
     (by decide) (by decide)⟩

/-! ## Claim C1 — broadcaster event kinds -/

/-- C1 counterexample: a value newly added this tick (`is_added()` true)
makes the broadcaster emit `Broadcast::ComponentChanged` — not the
`ComponentAdded` event the claim requires; no `ComponentAdded` appears. -/
theorem C1_counterexample :
    (Tracked.mk (SEntity.mk 0 0) (NSprite.mk 0) true true).was_added = true
    ∧ networkedNSprite [Tracked.mk (SEntity.mk 0 0) (NSprite.mk 0) true true]
        = some [Broadcast.ComponentChanged (SEntity.mk 0 0) 100 [0]] := by
  constructor
  · rfl
  · simp [networkedNSprite, networked, resolveKind, kind_to_type_id_mappings,
      lookupA, encodeNSprite, encodeVarint]

/-- C1 amended: once per tick, for every entity owning a value of a
replicable type, the broadcaster emits one `ComponentChanged` event when
the value was newly added or mutated this tick, and nothing for unmodified
values; `ComponentAdded` is never emitted. -/
theorem C1_networked_events {α : Type} (encode : α → List Nat) (ty : TypeId)
    (kind : Nat) (ts : List (Tracked α)) (bs : List Broadcast)
    (hk : resolveKind ty = some kind)
    (hrun : networked encode ty ts = some bs) :
    (∀ e c d, Broadcast.ComponentAdded e c d ∉ bs)
    ∧ (∀ e c d, Broadcast.ComponentChanged e c d ∈ bs
        ↔ ∃ t ∈ ts, (t.was_added || t.was_changed) = true
            ∧ e = t.entity ∧ c = kind ∧ d = encode t.value) := by
  induction ts generalizing bs with
  | nil =>
    injection hrun with h2
    rw [← h2]
    constructor
    · intro e c d hmem
      cases hmem
    · intro e c d
      simp
  | cons t rest ih =>
    rw [networked] at hrun
    by_cases hflag : (t.was_added || t.was_changed) = true
    · rw [if_pos hflag, hk] at hrun
      cases hrest : networked encode ty rest with
      | none =>
        rw [hrest] at hrun
        cases hrun
      | some bs' =>
        rw [hrest] at hrun
        injection hrun with h2
        rw [← h2]
        obtain ⟨ihA, ihC⟩ := ih bs' hrest
        constructor
        · intro e c d hmem
          rw [List.mem_cons] at hmem
          rcases hmem with hmem | hmem
          · cases hmem
          · exact ihA e c d hmem
        · intro e c d
          rw [List.mem_cons]
          constructor
          · rintro (heq | hmem)
            · injection heq with h1 h3 h4
              exact ⟨t, by simp, hflag, h1, h3, h4⟩
            · obtain ⟨t2, ht2, hf2, he, hcc, hdd⟩ := (ihC e c d).mp hmem
              exact ⟨t2, by simp [ht2], hf2, he, hcc, hdd⟩
          · rintro ⟨t2, ht2, hf2, he, hcc, hdd⟩
            rw [List.mem_cons] at ht2
            rcases ht2 with rfl | ht2
            · left
              rw [he, hcc, hdd]
            · right
              exact (ihC e c d).mpr ⟨t2, ht2, hf2, he, hcc, hdd⟩
    · rw [if_neg hflag] at hrun
      obtain ⟨ihA, ihC⟩ := ih bs hrun
      refine ⟨ihA, ?_⟩
      intro e c d
      rw [ihC e c d]
      constructor
      · rintro ⟨t2, ht2, hf2, he, hcc, hdd⟩
        exact ⟨t2, by simp [ht2], hf2, he, hcc, hdd⟩
      · rintro ⟨t2, ht2, hf2, he, hcc, hdd⟩
        rw [List.mem_cons] at ht2
        rcases ht2 with rfl | ht2
        · exact absurd hf2 hflag
        · exact ⟨t2, ht2, hf2, he, hcc, hdd⟩

/-- C1 witness: one newly added `NSprite` value yields exactly one
`ComponentChanged` and no `ComponentAdded`. -/
theorem C1_networked_events_witness :
    resolveKind TypeId.NSpriteT = some 100
    ∧ networkedNSprite [Tracked.mk (SEntity.mk 0 0) (NSprite.mk 0) true true]
        = some [Broadcast.ComponentChanged (SEntity.mk 0 0) 100 [0]]
    ∧ Broadcast.ComponentAdded (SEntity.mk 0 0) 100 [0]
        ∉ [Broadcast.ComponentChanged (SEntity.mk 0 0) 100 [0]] :=
  have hk : resolveKind TypeId.NSpriteT = some 100 := by decide
  have hrun : networked encodeNSprite TypeId.NSpriteT
      [Tracked.mk (SEntity.mk 0 0) (NSprite.mk 0) true true]
      = some [Broadcast.ComponentChanged (SEntity.mk 0 0) 100 [0]] := by
    simp [networked, resolveKind, kind_to_type_id_mappings, lookupA,
      encodeNSprite, encodeVarint]
  ⟨hk, hrun,
   (C1_networked_events encodeNSprite TypeId.NSpriteT 100
      [Tracked.mk (SEntity.mk 0 0) (NSprite.mk 0) true true]
      [Broadcast.ComponentChanged (SEntity.mk 0 0) 100 [0]] hk hrun).1
     (SEntity.mk 0 0) 100 [0]⟩

end Demo
